import Mathlib

/-!
Shallow embedding of the `emma` ingestion pipeline, for checking the
natural-language specification against the Go source.

Modelled components and their source locations:
* dynamic configuration values (Go `map[string]interface{}` built from YAML/JSON)
* `internal/handlers/handler.go`: `HTTPFetcher.extractDataPoints`,
  `extractSingleDataPoint`, `extractCoordinates`, `generateUUID`,
  `getStringConfig`, header environment-variable interpolation, `Validate`
* `internal/kafka/producer.go`: `Producer.PublishPoints`
* `internal/config` (source registry): `SourceConfig`, `ValidateCategory`,
  `Validate`, `GetFrequency`, `LoadSourceConfigs`
* Go standard library `time.ParseDuration` (called by `GetFrequency`),
  modelled from the Go runtime source since its exact semantics decide
  which frequency strings the registry accepts
* `internal/handlers/factory.go`: `GetHandler`; `cmd/ingestor/main.go`:
  `startWorker`

External effects (the gjson path-query engine, the process environment,
wall-clock time, protobuf/JSON marshalling, the Kafka transport) are passed
in as explicit function parameters: the functions below are the pipeline
logic evaluated against those oracles.  Go `float64` values are modelled as
rationals; every comparison the claims exercise is at values represented
exactly in binary floating point, where the two orders agree.
-/

namespace Emma

instance {ε α : Type} [DecidableEq ε] [DecidableEq α] : DecidableEq (Except ε α) :=
  fun a b =>
    match a, b with
    | Except.ok x, Except.ok y =>
      if h : x = y then isTrue (by rw [h])
      else isFalse (fun hh => h (by injection hh))
    | Except.error x, Except.error y =>
      if h : x = y then isTrue (by rw [h])
      else isFalse (fun hh => h (by injection hh))
    | Except.ok _, Except.error _ => isFalse (fun hh => Except.noConfusion hh)
    | Except.error _, Except.ok _ => isFalse (fun hh => Except.noConfusion hh)

/-- Dynamic values as produced by YAML/JSON decoding into Go `interface\x7b\x7d`.
A YAML integer literal decodes to `vInt`, a float literal to `vFloat`;
Go type assertions `.(float64)`, `.(string)`, `.(map[string]interface\x7b\x7d)`,
`.([]interface\x7b\x7d)` succeed only on the matching constructor. -/
inductive GoValue where
  | vNull
  | vBool (b : Bool)
  | vInt (n : Int)
  | vFloat (q : Rat)
  | vString (s : String)
  | vList (xs : List GoValue)
  | vMap (m : List (String × GoValue))

/-- A Go `map[string]interface\x7b\x7d`, modelled as an association list with
distinct keys (lookup takes the first binding). -/
abbrev GoMap := List (String × GoValue)

/-- Go map indexing `m[k]`: `some v` when the key is present. -/
def mapLookup (m : GoMap) (k : String) : Option GoValue :=
  match m with
  | [] => none
  | (k', v) :: rest => if k' = k then some v else mapLookup rest k

/-- Go map assignment `m[k] = v` (overwrites an existing binding). -/
def mapSet (m : GoMap) (k : String) (v : GoValue) : GoMap :=
  match m with
  | [] => [(k, v)]
  | (k', v') :: rest => if k' = k then (k, v) :: rest else (k', v') :: mapSet rest k v

/-- The published measurement record (`proto.DataPoint`). -/
structure DataPoint where
  source : String
  epochMs : Int
  value : Rat
  lat : Rat
  lon : Rat
  variable_ : String
  units : String
  resolution : String
  uuid : String
  category : String
deriving DecidableEq

/-- `HTTPFetcher.getStringConfig` (handler.go:406-411): returns the value at
`key` when it is present with dynamic type string, else the default. -/
def getStringConfig (config : GoMap) (key default_ : String) : String :=
  match mapLookup config key with
  | some (GoValue.vString s) => s
  | _ => default_

/-- Structured rendering of the `fmt.Errorf` values produced by the
extraction functions in handler.go; `coordsWrap` and `pointWrap` are the
`%w`-wrapping errors of lines 332 and 285/296. -/
inductive ExtractErr where
  | responsePathRequired
  | responsePathNotFound (path : String)
  | latPathNotFound (path : String)
  | lonPathNotFound (path : String)
  | latMustBeSpecified
  | lonMustBeSpecified
  | invalidLatitude (lat : Rat)
  | invalidLongitude (lon : Rat)
  | coordinatesRequired
  | coordsWrap (e : ExtractErr)
  | pointWrap (e : ExtractErr)
deriving DecidableEq

/-- The final range validation of `HTTPFetcher.extractCoordinates`
(handler.go:387-395). -/
def validateCoords (lat lon : Rat) : Except ExtractErr (Rat × Rat) :=
  if lat < -90 ∨ lat > 90 then Except.error (ExtractErr.invalidLatitude lat)
  else if lon < -180 ∨ lon > 180 then Except.error (ExtractErr.invalidLongitude lon)
  else Except.ok (lat, lon)

/-- Longitude half of `HTTPFetcher.extractCoordinates` (handler.go:374-385),
with `gj` the gjson query engine (`gj doc path = none` iff
`gjson.Get(doc, path).Exists()` is false, `some q` giving `.Float()`). -/
def extractCoordLon (gj : String → String → Option Rat) (jsonData : String)
    (coords : GoMap) (lat : Rat) : Except ExtractErr (Rat × Rat) :=
  match mapLookup coords "lon_path" with
  | some (GoValue.vString lonPath) =>
    match gj jsonData lonPath with
    | none => Except.error (ExtractErr.lonPathNotFound lonPath)
    | some lon => validateCoords lat lon
  | _ =>
    match mapLookup coords "lon" with
    | some (GoValue.vFloat lonVal) => validateCoords lat lonVal
    | _ => Except.error ExtractErr.lonMustBeSpecified

/-- `HTTPFetcher.extractCoordinates` (handler.go:358-396): latitude from
`lat_path` (must resolve) or a literal float `lat`, else an error; then the
longitude half and the range validation. -/
def extractCoordinates (gj : String → String → Option Rat) (jsonData : String)
    (coords : GoMap) : Except ExtractErr (Rat × Rat) :=
  match mapLookup coords "lat_path" with
  | some (GoValue.vString latPath) =>
    match gj jsonData latPath with
    | none => Except.error (ExtractErr.latPathNotFound latPath)
    | some lat => extractCoordLon gj jsonData coords lat
  | _ =>
    match mapLookup coords "lat" with
    | some (GoValue.vFloat latVal) => extractCoordLon gj jsonData coords latVal
    | _ => Except.error ExtractErr.latMustBeSpecified

/-- `HTTPFetcher.generateUUID` (handler.go:398-404), with the nanosecond
clock reading passed in. -/
def generateUUID (nowNs : Int) (source variable_ stationId : String) : String :=
  if stationId ≠ "" then
    source ++ "_" ++ variable_ ++ "_" ++ stationId ++ "_" ++ toString nowNs
  else
    source ++ "_" ++ variable_ ++ "_" ++ toString nowNs

/-- `HTTPFetcher.extractSingleDataPoint` (handler.go:306-356).  `now` is the
pair (UnixMilli, UnixNano) of clock readings; every success path of the Go
function returns a non-nil point, so success is `Except.ok` of the point. -/
def extractSingleDataPoint (gj : String → String → Option Rat) (now : Int × Int)
    (jsonData : String) (config : GoMap) (source category : String) :
    Except ExtractErr DataPoint :=
  let responsePath := getStringConfig config "response_path" ""
  if responsePath = "" then Except.error ExtractErr.responsePathRequired
  else
    match gj jsonData responsePath with
    | none => Except.error (ExtractErr.responsePathNotFound responsePath)
    | some value =>
      let variable_ := getStringConfig config "variable" "unknown"
      let units := getStringConfig config "units" "unknown"
      match mapLookup config "coordinates" with
      | some (GoValue.vMap coords) =>
        match extractCoordinates gj jsonData coords with
        | Except.error e => Except.error (ExtractErr.coordsWrap e)
        | Except.ok (lat, lon) =>
          let stationId := getStringConfig config "station_id" ""
          Except.ok
            { source := source
              epochMs := now.1
              value := value
              lat := lat
              lon := lon
              variable_ := variable_
              units := units
              resolution := getStringConfig config "resolution" "point"
              uuid := generateUUID now.2 source variable_ stationId
              category := category }
      | _ => Except.error ExtractErr.coordinatesRequired

/-- The `data_points` loop of `HTTPFetcher.extractDataPoints`
(handler.go:281-291): entries whose dynamic type is not
`map[string]interface\x7b\x7d` are skipped; the first failing extraction aborts
the whole call with the wrapping error of line 285. -/
def extractLoop (gj : String → String → Option Rat) (now : Int × Int)
    (jsonData : String) (source category : String) :
    List GoValue → Except ExtractErr (List DataPoint)
  | [] => Except.ok []
  | dp :: rest =>
    match dp with
    | GoValue.vMap dataPoint =>
      match extractSingleDataPoint gj now jsonData dataPoint source category with
      | Except.error e => Except.error (ExtractErr.pointWrap e)
      | Except.ok point =>
        match extractLoop gj now jsonData source category rest with
        | Except.error e => Except.error e
        | Except.ok points => Except.ok (point :: points)
    | _ => extractLoop gj now jsonData source category rest

/-- `HTTPFetcher.extractDataPoints` (handler.go:271-304): multi-point mode
when `data_points` is a list, otherwise single-point mode over the whole
config (the Go nil-check on a returned point never fires, as
`extractSingleDataPoint` has no `(nil, nil)` return). -/
def extractDataPoints (gj : String → String → Option Rat) (now : Int × Int)
    (jsonData : String) (config : GoMap) : Except ExtractErr (List DataPoint) :=
  let source := getStringConfig config "source" "unknown"
  let category := getStringConfig config "category" "environmental"
  match mapLookup config "data_points" with
  | some (GoValue.vList dataPoints) =>
    extractLoop gj now jsonData source category dataPoints
  | _ =>
    match extractSingleDataPoint gj now jsonData config source category with
    | Except.error e => Except.error (ExtractErr.pointWrap e)
    | Except.ok point => Except.ok [point]

/-! Header environment-variable interpolation (handler.go:218-233).  Go
strings are modelled here as character lists; `strings.HasPrefix` and
`strings.HasSuffix` are `List.isPrefixOf` / `List.isSuffixOf`. -/

/-- `strings.TrimPrefix(s, pre)`: drop `pre` when it is a prefix, else `s`. -/
def goTrimPre (s pre : List Char) : List Char :=
  if pre.isPrefixOf s then s.drop pre.length else s

/-- `strings.TrimSuffix(s, suf)`: cut `suf` when it is a suffix, else `s`. -/
def goTrimSuf (s suf : List Char) : List Char :=
  if suf.isSuffixOf s then s.take (s.length - suf.length) else s

/-- `os.Getenv`: the environment is a partial map; an unset variable reads
as the empty string. -/
def goGetenv (env : List Char → Option (List Char)) (name : List Char) : List Char :=
  (env name).getD []

/-- The header-value transformation of `HTTPFetcher.Fetch`
(handler.go:225-230): a value with prefix `"$\x7b"` and suffix `"\x7d"` is
replaced by the environment variable named between them before being passed
to `req.Header.Set`; any other value is passed through unchanged. -/
def interpolateHeaderValue (env : List Char → Option (List Char))
    (value : List Char) : List Char :=
  if ['$', '\x7b'].isPrefixOf value && ['\x7d'].isSuffixOf value then
    goGetenv env (goTrimPre (goTrimSuf value ['\x7d']) ['$', '\x7b'])
  else value

/-! The publisher, `Producer.PublishPoints` (producer.go:45-86).  The
protobuf and JSON marshallers and the Kafka `WriteMessages` call are
oracle parameters; `none` from a marshaller is a marshalling error. -/

/-- Opaque marshalled payload bytes. -/
abbrev Bytes := List Nat

structure KafkaHeader where
  key : String
  value : String
deriving DecidableEq

structure KafkaMessage where
  key : String
  value : Bytes
  headers : List KafkaHeader
deriving DecidableEq

inductive PublishErr where
  | marshalJSONFailed
  | kafkaWriteFailed (e : String)
deriving DecidableEq

/-- The per-point encoding of producer.go:53-62: protobuf first, JSON on
failure; a JSON failure aborts the whole publish call. -/
def marshalPoint (pb jm : DataPoint → Option Bytes) (p : DataPoint) :
    Except PublishErr Bytes :=
  match pb p with
  | some data => Except.ok data
  | none =>
    match jm p with
    | some data => Except.ok data
    | none => Except.error PublishErr.marshalJSONFailed

/-- The bus message built for one point (producer.go:64-73).  The format
header is the fixed string "protobuf" in the source, independent of which
marshaller produced `data`. -/
def messageFor (p : DataPoint) (data : Bytes) : KafkaMessage :=
  { key := p.source
    value := data
    headers :=
      [ { key := "source", value := p.source }
      , { key := "variable", value := p.variable_ }
      , { key := "category", value := p.category }
      , { key := "format", value := "protobuf" } ] }

/-- The message-building loop of producer.go:52-74; the first point whose
JSON fallback also fails aborts with an error. -/
def buildMessages (pb jm : DataPoint → Option Bytes) :
    List DataPoint → Except PublishErr (List KafkaMessage)
  | [] => Except.ok []
  | p :: ps =>
    match marshalPoint pb jm p with
    | Except.error e => Except.error e
    | Except.ok data =>
      match buildMessages pb jm ps with
      | Except.error e => Except.error e
      | Except.ok msgs => Except.ok (messageFor p data :: msgs)

/-- Result of one `PublishPoints` call: the list of `WriteMessages`
invocations made on the Kafka writer, and the returned error status. -/
structure PublishOutcome where
  busCalls : List (List KafkaMessage)
  result : Except PublishErr Unit

/-- `Producer.PublishPoints` (producer.go:45-86): an empty batch returns
immediately; otherwise each point is encoded and the whole batch is
submitted in one `WriteMessages` call. -/
def publishPoints (pb jm : DataPoint → Option Bytes)
    (write : List KafkaMessage → Except String Unit)
    (points : List DataPoint) : PublishOutcome :=
  if points.length = 0 then { busCalls := [], result := Except.ok () }
  else
    match buildMessages pb jm points with
    | Except.error e => { busCalls := [], result := Except.error e }
    | Except.ok msgs =>
      { busCalls := [msgs]
        result :=
          match write msgs with
          | Except.ok _ => Except.ok ()
          | Except.error e => Except.error (PublishErr.kafkaWriteFailed e) }

/-! Go standard library `time.ParseDuration`, called by
`SourceConfig.GetFrequency`.  Modelled from the Go runtime source
(`time/format.go`): uint64 arithmetic is Nat with the source's explicit
overflow comparisons against 2^63; the result is an int64 nanosecond count
as an Int.  The error messages' dynamic arguments are dropped; only the
error case matters to the registry. -/

inductive DurationErr where
  | invalidDuration
  | missingUnit
  | unknownUnit
deriving DecidableEq

/-- Character class `[0-9.]` used by the duration scanner. -/
def isDigitDot (c : Char) : Bool := c == '.' || c.isDigit

/-- `leadingInt`: consume leading digits into a uint64, with the source's
two overflow guards (`x > 1<<63/10` before, `x > 1<<63` after the step). -/
def leadingIntAux (x : Nat) : List Char → Except Unit (Nat × List Char)
  | [] => Except.ok (x, [])
  | c :: rest =>
    if !c.isDigit then Except.ok (x, c :: rest)
    else if x > 2 ^ 63 / 10 then Except.error ()
    else
      let x' := x * 10 + (c.toNat - '0'.toNat)
      if x' > 2 ^ 63 then Except.error ()
      else leadingIntAux x' rest

def leadingInt (s : List Char) : Except Unit (Nat × List Char) :=
  leadingIntAux 0 s

/-- `leadingFraction`: consume fractional digits; on overflow further digits
are discarded while the scale stops growing (`scale`, a float64 power of ten
in the source, is exact in this range and is modelled as the Nat power). -/
def leadingFractionAux (x scale : Nat) (overflow : Bool) :
    List Char → Nat × Nat × List Char
  | [] => (x, scale, [])
  | c :: rest =>
    if !c.isDigit then (x, scale, c :: rest)
    else if overflow then leadingFractionAux x scale true rest
    else if x > (2 ^ 63 - 1) / 10 then leadingFractionAux x scale true rest
    else
      let y := x * 10 + (c.toNat - '0'.toNat)
      if y > 2 ^ 63 then leadingFractionAux x scale true rest
      else leadingFractionAux y (scale * 10) false rest

def leadingFraction (s : List Char) : Nat × Nat × List Char :=
  leadingFractionAux 0 1 false s

/-- The `unitMap` of time/format.go, in nanoseconds. -/
def unitMap (u : List Char) : Option Nat :=
  if u = ['n', 's'] then some 1
  else if u = ['u', 's'] then some 1000
  else if u = ['µ', 's'] then some 1000
  else if u = ['μ', 's'] then some 1000
  else if u = ['m', 's'] then some 1000000
  else if u = ['s'] then some 1000000000
  else if u = ['m'] then some 60000000000
  else if u = ['h'] then some 3600000000000
  else none

/-- The return epilogue of `parseDuration`: negate, or reject values above
int64 range. -/
def parseDurEnd (neg : Bool) (d : Nat) : Except DurationErr Int :=
  if neg then Except.ok (-(d : Int))
  else if d > 2 ^ 63 - 1 then Except.error DurationErr.invalidDuration
  else Except.ok (d : Int)

/-- The main loop of `parseDuration`, one iteration per
`[0-9]*(\.[0-9]*)?unit` component.  Each iteration consumes at least the
unit characters, so `fuel := s.length` at the top level always suffices;
the fuel-exhaustion branch is unreachable. -/
def parseDurLoop : Nat → List Char → Nat → Bool → Except DurationErr Int
  | _, [], d, neg => parseDurEnd neg d
  | 0, _ :: _, _, _ => Except.error DurationErr.invalidDuration
  | fuel + 1, c :: s', d, neg =>
    let s := c :: s'
    if !isDigitDot c then Except.error DurationErr.invalidDuration
    else
      match leadingInt s with
      | Except.error _ => Except.error DurationErr.invalidDuration
      | Except.ok (v, s1) =>
        let pre := decide (s1.length ≠ s.length)
        let frac :=
          match s1 with
          | '.' :: s1' =>
            let r := leadingFraction s1'
            (r.1, r.2.1, r.2.2, decide (r.2.2.length ≠ s1'.length))
          | _ => (0, 1, s1, false)
        if !pre && !frac.2.2.2 then Except.error DurationErr.invalidDuration
        else
          let u := frac.2.2.1.takeWhile (fun ch => !isDigitDot ch)
          let s3 := frac.2.2.1.dropWhile (fun ch => !isDigitDot ch)
          if u = [] then Except.error DurationErr.missingUnit
          else
            match unitMap u with
            | none => Except.error DurationErr.unknownUnit
            | some unit =>
              if v > 2 ^ 63 / unit then Except.error DurationErr.invalidDuration
              else
                let v1 := v * unit
                -- the source adds uint64(float64(f) * (float64(unit)/scale));
                -- modelled by the exact integer quotient, which agrees at every
                -- input this development evaluates (no fractional component)
                let v2 := if frac.1 > 0 then v1 + frac.1 * unit / frac.2.1 else v1
                if frac.1 > 0 ∧ v2 > 2 ^ 63 then
                  Except.error DurationErr.invalidDuration
                else
                  let d' := d + v2
                  if d' > 2 ^ 63 then Except.error DurationErr.invalidDuration
                  else parseDurLoop fuel s3 d' neg

/-- `time.ParseDuration` (time/format.go): optional sign, the literal "0"
special case, then the component loop. -/
def parseDuration (str : String) : Except DurationErr Int :=
  let s0 := str.data
  let signed :=
    match s0 with
    | c :: rest => if c = '-' ∨ c = '+' then (c == '-', rest) else (false, s0)
    | [] => (false, s0)
  if signed.2 = ['0'] then Except.ok 0
  else if signed.2 = [] then Except.error DurationErr.invalidDuration
  else parseDurLoop signed.2.length signed.2 0 signed.1

/-! The source registry (`src/unnamed/part_000`, package config). -/

/-- A parsed source definition file. -/
structure SourceConfig where
  name : String
  type_ : String
  category : String
  frequency : String
  config : GoMap

/-- `ValidateCategory` (part_000:24-31). -/
def ValidateCategory (category : String) : Bool :=
  category = "environmental" || category = "health" || category = "infrastructure"
    || category = "economic" || category = "social"

/-- `SourceConfig.GetFrequency` (part_000:41-43). -/
def GetFrequency (s : SourceConfig) : Except DurationErr Int :=
  parseDuration s.frequency

/-- Structured rendering of the validation errors of part_000:49-69. -/
inductive ConfigErr where
  | nameEmpty
  | typeEmpty
  | categoryEmpty
  | invalidCategory (c : String)
  | frequencyEmpty
  | invalidFrequency (f : String) (e : DurationErr)
deriving DecidableEq

/-- `SourceConfig.Validate` (part_000:49-69): non-empty name/type/category,
category in the fixed enumeration, non-empty frequency, and frequency must
parse via `time.ParseDuration` — note no positivity check on the result. -/
def Validate (s : SourceConfig) : Except ConfigErr Unit :=
  if s.name = "" then Except.error ConfigErr.nameEmpty
  else if s.type_ = "" then Except.error ConfigErr.typeEmpty
  else if s.category = "" then Except.error ConfigErr.categoryEmpty
  else if !ValidateCategory s.category then
    Except.error (ConfigErr.invalidCategory s.category)
  else if s.frequency = "" then Except.error ConfigErr.frequencyEmpty
  else
    match GetFrequency s with
    | Except.error e => Except.error (ConfigErr.invalidFrequency s.frequency e)
    | Except.ok _ => Except.ok ()

/-- `LoadSourceConfigs` (part_000:71-102) over the sequence of files the
directory walk yields, each already parsed (the filesystem walk and YAML
decoding are abstracted): every config is validated in order and the first
validation failure aborts the whole load. -/
def loadSourceConfigs : List SourceConfig → Except ConfigErr (List SourceConfig)
  | [] => Except.ok []
  | c :: rest =>
    match Validate c with
    | Except.error e => Except.error e
    | Except.ok _ =>
      match loadSourceConfigs rest with
      | Except.error e => Except.error e
      | Except.ok cs => Except.ok (c :: cs)

/-! The handler factory (`internal/handlers/factory.go`) and the worker
start-up phase of `cmd/ingestor/main.go`. -/

/-- The only constructible handler; the factory returns it for
`"http_fetch"`. -/
inductive HandlerResolution where
  | httpFetch
deriving DecidableEq

/-- `GetHandler` (factory.go:7-20). -/
def GetHandler (handlerType : String) : Except String HandlerResolution :=
  if handlerType = "http_fetch" then Except.ok HandlerResolution.httpFetch
  else if handlerType = "web_scraper" then
    Except.error "web_scraper not implemented yet"
  else if handlerType = "ftp_download" then
    Except.error "ftp_download not implemented yet"
  else Except.error ("unknown handler type: " ++ handlerType)

/-- `HTTPFetcher.Validate` (handler.go:200-205): only presence of the `url`
key is required. -/
def httpFetcherValidate (config : GoMap) : Except String Unit :=
  match mapLookup config "url" with
  | none => Except.error "url is required for http_fetch"
  | some _ => Except.ok ()

/-- The config merge of startWorker (main.go:85-90): copy the type-specific
config and overwrite `category` and `source` from the definition. -/
def mergeWorkerConfig (s : SourceConfig) : GoMap :=
  mapSet (mapSet s.config "category" (GoValue.vString s.category))
    "source" (GoValue.vString s.name)

/-- Outcome of the start-up phase of `startWorker` (main.go:61-97): which
check failed (the worker returns without ever fetching), or the task
started with its resolved handler, tick interval and merged config. -/
inductive WorkerStart where
  | failedHandler (e : String)
  | failedValidate (e : String)
  | failedFrequency (e : DurationErr)
  | started (h : HandlerResolution) (frequency : Int) (mergedConfig : GoMap)

/-- The start-up phase of `startWorker` (main.go:61-97): resolve the
handler, validate the type-specific config, parse the frequency; any
failure returns before the fetch loop, so the source's task never starts. -/
def startWorker (s : SourceConfig) : WorkerStart :=
  match GetHandler s.type_ with
  | Except.error e => WorkerStart.failedHandler e
  | Except.ok h =>
    match httpFetcherValidate s.config with
    | Except.error e => WorkerStart.failedValidate e
    | Except.ok _ =>
      match GetFrequency s with
      | Except.error e => WorkerStart.failedFrequency e
      | Except.ok freq => WorkerStart.started h freq (mergeWorkerConfig s)

/-! Theorems checking the specification's claims. -/

/-- C7: publishing an empty batch of DataPoints returns success and submits
no messages to the bus: the Kafka writer is never invoked, whatever the
marshallers and transport would do. -/
theorem publishPoints_empty_is_noop (pb jm : DataPoint → Option Bytes)
    (write : List KafkaMessage → Except String Unit) :
    publishPoints pb jm write [] = { busCalls := [], result := Except.ok () } := rfl

/-- C8: resolving the extraction capability for `web_scraper` and
`ftp_download` yields a "not implemented" error, any type string outside
the three known ones yields an "unknown handler type" error, and whenever
handler resolution fails the worker start-up phase returns before any fetch
— the source's task is not started. -/
theorem getHandler_unimplemented_and_unknown_fail_before_start :
    GetHandler "web_scraper" = Except.error "web_scraper not implemented yet" ∧
    GetHandler "ftp_download" = Except.error "ftp_download not implemented yet" ∧
    (∀ t : String, t ≠ "http_fetch" → t ≠ "web_scraper" → t ≠ "ftp_download" →
      GetHandler t = Except.error ("unknown handler type: " ++ t)) ∧
    (∀ (s : SourceConfig) (e : String), GetHandler s.type_ = Except.error e →
      startWorker s = WorkerStart.failedHandler e) := by
  refine ⟨by decide, by decide, ?_, ?_⟩
  · intro t h1 h2 h3
    simp [GetHandler, h1, h2, h3]
  · intro s e h
    simp [startWorker, h]

def bogusSource : SourceConfig :=
  { name := "n", type_ := "bogus", category := "environmental",
    frequency := "15s", config := [] }

theorem getHandler_failures_witness :
    GetHandler "bogus" = Except.error ("unknown handler type: " ++ "bogus") ∧
    startWorker bogusSource = WorkerStart.failedHandler ("unknown handler type: " ++ "bogus") := by
  constructor
  · exact getHandler_unimplemented_and_unknown_fail_before_start.2.2.1 "bogus"
      (by decide) (by decide) (by decide)
  · exact getHandler_unimplemented_and_unknown_fail_before_start.2.2.2 bogusSource
      ("unknown handler type: " ++ "bogus") (by decide)

/-- A concrete point for exercising the publisher. -/
def samplePoint : DataPoint :=
  { source := "station-1", epochMs := 0, value := 1, lat := 10, lon := 20,
    variable_ := "temperature", units := "celsius", resolution := "point",
    uuid := "station-1_temperature_0", category := "environmental" }

/-- Marshal oracle on which protobuf encoding fails for every point. -/
def pbFailOracle : DataPoint → Option Bytes := fun _ => none

/-- Marshal oracle on which JSON encoding succeeds with payload `[123]`. -/
def jsonOkOracle : DataPoint → Option Bytes := fun _ => some [123]

/-- Transport oracle whose write always succeeds. -/
def writeOkOracle : List KafkaMessage → Except String Unit := fun _ => Except.ok ()

/-- C1 (refuting the claim as stated — producer.go:71): when protobuf
marshalling fails and the JSON fallback is taken, the message is delivered
with payload produced by the JSON marshaller, yet its format header is
still the fixed string "protobuf": the header does not name the encoding
that actually succeeded. -/
theorem format_header_fixed_despite_json_fallback :
    pbFailOracle samplePoint = none ∧
    jsonOkOracle samplePoint = some [123] ∧
    (publishPoints pbFailOracle jsonOkOracle writeOkOracle [samplePoint]).result
      = Except.ok () ∧
    (publishPoints pbFailOracle jsonOkOracle writeOkOracle [samplePoint]).busCalls
      = [[ { key := "station-1", value := [123],
             headers :=
               [ { key := "source", value := "station-1" }
               , { key := "variable", value := "temperature" }
               , { key := "category", value := "environmental" }
               , { key := "format", value := "protobuf" } ] } ]] :=
  ⟨rfl, rfl, rfl, rfl⟩

/-- A source definition whose frequency parses to the zero duration. -/
def zeroFreqConfig : SourceConfig :=
  { name := "river-gauge", type_ := "http_fetch", category := "environmental",
    frequency := "0s", config := [] }

/-- C3 counterexample: a definition with frequency "0s" passes validation
and the whole load, yet its frequency parses to 0, which is not strictly
positive — so "any definition whose frequency does not parse to a strictly
positive duration makes the load fail" is false of the code. -/
theorem validate_accepts_zero_frequency :
    Validate zeroFreqConfig = Except.ok () ∧
    loadSourceConfigs [zeroFreqConfig] = Except.ok [zeroFreqConfig] ∧
    GetFrequency zeroFreqConfig = Except.ok 0 ∧
    ¬(0 : Int) > 0 :=
  ⟨rfl, rfl, rfl, by decide⟩

/-- `Validate` only propagates `time.ParseDuration` failure; success means
the frequency parsed, with no constraint on the parsed value. -/
theorem validate_ok_frequency_parses (s : SourceConfig)
    (h : Validate s = Except.ok ()) : ∃ d, GetFrequency s = Except.ok d := by
  unfold Validate at h
  split_ifs at h
  cases heq : GetFrequency s with
  | error e => rw [heq] at h; cases h
  | ok d => exact ⟨d, rfl⟩

/-- A config whose frequency fails to parse fails `Validate`. -/
theorem validate_error_of_frequency_error (s : SourceConfig) (e : DurationErr)
    (h : GetFrequency s = Except.error e) : ∃ e', Validate s = Except.error e' := by
  unfold Validate
  split_ifs <;> try exact ⟨_, rfl⟩
  rw [h]
  exact ⟨_, rfl⟩

/-- C3 as amended: every definition accepted by the registry load has a
frequency that parses as a Go duration (the parsed value may be zero or
negative); any definition whose frequency fails to parse makes the whole
load fail with an error. -/
theorem load_accepted_frequency_parses :
    (∀ cfgs out, loadSourceConfigs cfgs = Except.ok out →
      ∀ c ∈ out, ∃ d, GetFrequency c = Except.ok d) ∧
    (∀ cfgs (c : SourceConfig), c ∈ cfgs →
      (∃ e, GetFrequency c = Except.error e) →
      ∃ e', loadSourceConfigs cfgs = Except.error e') := by
  constructor
  · intro cfgs
    induction cfgs with
    | nil =>
      intro out h c hc
      simp only [loadSourceConfigs] at h
      cases h
      cases hc
    | cons a rest ih =>
      intro out h c hc
      unfold loadSourceConfigs at h
      cases hv : Validate a with
      | error e => rw [hv] at h; cases h
      | ok u =>
        rw [hv] at h
        cases hl : loadSourceConfigs rest with
        | error e => rw [hl] at h; cases h
        | ok cs =>
          rw [hl] at h
          cases h
          cases hc with
          | head => exact validate_ok_frequency_parses a hv
          | tail _ hmem => exact ih cs hl c hmem
  · intro cfgs c hc he
    obtain ⟨e, he⟩ := he
    induction cfgs with
    | nil => cases hc
    | cons a rest ih =>
      cases hc with
      | head =>
        obtain ⟨e', hv⟩ := validate_error_of_frequency_error c e he
        exact ⟨e', by simp [loadSourceConfigs, hv]⟩
      | tail _ hmem =>
        cases hv : Validate a with
        | error e2 => exact ⟨e2, by simp [loadSourceConfigs, hv]⟩
        | ok u =>
          obtain ⟨e', hl⟩ := ih hmem
          exact ⟨e', by simp [loadSourceConfigs, hv, hl]⟩

def goodFreqConfig : SourceConfig :=
  { name := "a", type_ := "http_fetch", category := "health",
    frequency := "15s", config := [] }

def badFreqConfig : SourceConfig :=
  { name := "b", type_ := "http_fetch", category := "health",
    frequency := "often", config := [] }

theorem load_accepted_frequency_parses_witness :
    (∃ d, GetFrequency goodFreqConfig = Except.ok d) ∧
    (∃ e', loadSourceConfigs [badFreqConfig] = Except.error e') := by
  constructor
  · exact load_accepted_frequency_parses.1 [goodFreqConfig] [goodFreqConfig] rfl
      goodFreqConfig (by simp)
  · exact load_accepted_frequency_parses.2 [badFreqConfig] badFreqConfig (by simp)
      ⟨DurationErr.invalidDuration, rfl⟩

/-- C4: for a sub-configuration giving literal float coordinates,
`extractCoordinates` fails with the latitude range error whenever the
latitude is outside [-90, 90], with the longitude range error whenever the
longitude is outside [-180, 180], and returns the pair otherwise. -/
theorem literal_coordinates_range_validated
    (gj : String → String → Option Rat) (jsonData : String)
    (coords : GoMap) (lat lon : Rat)
    (hlatp : mapLookup coords "lat_path" = none)
    (hlat : mapLookup coords "lat" = some (GoValue.vFloat lat))
    (hlonp : mapLookup coords "lon_path" = none)
    (hlon : mapLookup coords "lon" = some (GoValue.vFloat lon)) :
    extractCoordinates gj jsonData coords =
      if lat < -90 ∨ lat > 90 then Except.error (ExtractErr.invalidLatitude lat)
      else if lon < -180 ∨ lon > 180 then Except.error (ExtractErr.invalidLongitude lon)
      else Except.ok (lat, lon) := by
  simp [extractCoordinates, extractCoordLon, validateCoords, hlatp, hlat, hlonp, hlon]

theorem literal_coordinates_range_validated_witness :
    extractCoordinates (fun _ _ => none) ""
        [("lat", GoValue.vFloat 95), ("lon", GoValue.vFloat 10)]
      = Except.error (ExtractErr.invalidLatitude 95) ∧
    extractCoordinates (fun _ _ => none) ""
        [("lat", GoValue.vFloat 45), ("lon", GoValue.vFloat 200)]
      = Except.error (ExtractErr.invalidLongitude 200) ∧
    extractCoordinates (fun _ _ => none) ""
        [("lat", GoValue.vFloat 45), ("lon", GoValue.vFloat 120)]
      = Except.ok (45, 120) := by
  refine ⟨?_, ?_, ?_⟩
  · rw [literal_coordinates_range_validated (fun _ _ => none) ""
      [("lat", GoValue.vFloat 95), ("lon", GoValue.vFloat 10)] 95 10 rfl rfl rfl rfl]
    decide
  · rw [literal_coordinates_range_validated (fun _ _ => none) ""
      [("lat", GoValue.vFloat 45), ("lon", GoValue.vFloat 200)] 45 200 rfl rfl rfl rfl]
    decide
  · rw [literal_coordinates_range_validated (fun _ _ => none) ""
      [("lat", GoValue.vFloat 45), ("lon", GoValue.vFloat 120)] 45 120 rfl rfl rfl rfl]
    decide

/-- C9: when the coordinates mapping has no `lat_path` (resp. `lon_path`)
and its literal `lat` (resp. `lon`) value is of any dynamic type other
than float64 — e.g. the integer YAML `lat: 45` decodes to — the value is
not used: extraction fails with the "must be specified via lat_path or
lat" (resp. lon) error. -/
theorem non_float_literal_coordinate_rejected
    (gj : String → String → Option Rat) (jsonData : String)
    (coords : GoMap) (v : GoValue) :
    ((mapLookup coords "lat_path" = none) → (mapLookup coords "lat" = some v) →
      (∀ q : Rat, v ≠ GoValue.vFloat q) →
      extractCoordinates gj jsonData coords
        = Except.error ExtractErr.latMustBeSpecified) ∧
    (∀ lat : Rat, (mapLookup coords "lat_path" = none) →
      (mapLookup coords "lat" = some (GoValue.vFloat lat)) →
      (mapLookup coords "lon_path" = none) → (mapLookup coords "lon" = some v) →
      (∀ q : Rat, v ≠ GoValue.vFloat q) →
      extractCoordinates gj jsonData coords
        = Except.error ExtractErr.lonMustBeSpecified) := by
  constructor
  · intro h1 h2 h3
    cases v <;> first
      | exact absurd rfl (h3 _)
      | simp [extractCoordinates, h1, h2]
  · intro lat h1 h2 h3 h4 h5
    cases v <;> first
      | exact absurd rfl (h5 _)
      | simp [extractCoordinates, extractCoordLon, h1, h2, h3, h4]

theorem non_float_literal_coordinate_rejected_witness :
    extractCoordinates (fun _ _ => none) ""
        [("lat", GoValue.vInt 45), ("lon", GoValue.vFloat 120)]
      = Except.error ExtractErr.latMustBeSpecified ∧
    extractCoordinates (fun _ _ => none) ""
        [("lat", GoValue.vFloat 45), ("lon", GoValue.vInt 120)]
      = Except.error ExtractErr.lonMustBeSpecified := by
  constructor
  · exact (non_float_literal_coordinate_rejected (fun _ _ => none) ""
      [("lat", GoValue.vInt 45), ("lon", GoValue.vFloat 120)] (GoValue.vInt 45)).1
      rfl rfl (fun q h => GoValue.noConfusion h)
  · exact (non_float_literal_coordinate_rejected (fun _ _ => none) ""
      [("lat", GoValue.vFloat 45), ("lon", GoValue.vInt 120)] (GoValue.vInt 120)).2
      45 rfl rfl rfl rfl (fun q h => GoValue.noConfusion h)

/-- An unresolvable (non-empty) `response_path` makes
`extractSingleDataPoint` fail with the "not found" error. -/
theorem extractSingle_error_of_unresolved_path
    (gj : String → String → Option Rat) (now : Int × Int) (jsonData : String)
    (m : GoMap) (source category : String)
    (hne : getStringConfig m "response_path" "" ≠ "")
    (hnf : gj jsonData (getStringConfig m "response_path" "") = none) :
    extractSingleDataPoint gj now jsonData m source category
      = Except.error (ExtractErr.responsePathNotFound
          (getStringConfig m "response_path" "")) := by
  simp only [extractSingleDataPoint]
  rw [if_neg hne, hnf]

/-- If some mapping entry of the `data_points` list fails extraction, the
whole loop fails. -/
theorem extractLoop_error_of_mem
    (gj : String → String → Option Rat) (now : Int × Int) (jsonData : String)
    (source category : String) (entries : List GoValue) (m : GoMap)
    (hm : GoValue.vMap m ∈ entries)
    (herr : ∃ e0, extractSingleDataPoint gj now jsonData m source category
      = Except.error e0) :
    ∃ e, extractLoop gj now jsonData source category entries = Except.error e := by
  induction entries with
  | nil => cases hm
  | cons a rest ih =>
    cases hm with
    | head =>
      obtain ⟨e0, he⟩ := herr
      exact ⟨ExtractErr.pointWrap e0, by simp [extractLoop, he]⟩
    | tail _ hmem =>
      cases a with
      | vMap m' =>
        cases hsingle : extractSingleDataPoint gj now jsonData m' source category with
        | error e1 => exact ⟨ExtractErr.pointWrap e1, by simp [extractLoop, hsingle]⟩
        | ok p =>
          obtain ⟨e, he⟩ := ih hmem
          exact ⟨e, by simp [extractLoop, hsingle, he]⟩
      | vNull =>
        obtain ⟨e, he⟩ := ih hmem
        exact ⟨e, by simpa [extractLoop] using he⟩
      | vBool b =>
        obtain ⟨e, he⟩ := ih hmem
        exact ⟨e, by simpa [extractLoop] using he⟩
      | vInt n =>
        obtain ⟨e, he⟩ := ih hmem
        exact ⟨e, by simpa [extractLoop] using he⟩
      | vFloat q =>
        obtain ⟨e, he⟩ := ih hmem
        exact ⟨e, by simpa [extractLoop] using he⟩
      | vString s =>
        obtain ⟨e, he⟩ := ih hmem
        exact ⟨e, by simpa [extractLoop] using he⟩
      | vList xs =>
        obtain ⟨e, he⟩ := ih hmem
        exact ⟨e, by simpa [extractLoop] using he⟩

/-- C2: in multi-point mode, if any sub-configuration's `response_path`
does not resolve in the document, extraction of the entire fetch returns
an error — no partial batch of DataPoints is produced. -/
theorem multi_point_unresolvable_path_aborts_fetch
    (gj : String → String → Option Rat) (now : Int × Int) (jsonData : String)
    (config : GoMap) (entries : List GoValue) (m : GoMap)
    (hdp : mapLookup config "data_points" = some (GoValue.vList entries))
    (hm : GoValue.vMap m ∈ entries)
    (hne : getStringConfig m "response_path" "" ≠ "")
    (hnf : gj jsonData (getStringConfig m "response_path" "") = none) :
    ∃ e, extractDataPoints gj now jsonData config = Except.error e := by
  obtain ⟨e, he⟩ := extractLoop_error_of_mem gj now jsonData
    (getStringConfig config "source" "unknown")
    (getStringConfig config "category" "environmental") entries m hm
    ⟨_, extractSingle_error_of_unresolved_path gj now jsonData m _ _ hne hnf⟩
  exact ⟨e, by simp [extractDataPoints, hdp, he]⟩

/-- Path oracle over a document with no resolvable paths. -/
def gjEmpty : String → String → Option Rat := fun _ _ => none

def badPathEntry : GoMap := [("response_path", GoValue.vString "$.missing")]

def badPathConfig : GoMap := [("data_points", GoValue.vList [GoValue.vMap badPathEntry])]

theorem multi_point_unresolvable_path_aborts_fetch_witness :
    ∃ e, extractDataPoints gjEmpty (0, 0) "" badPathConfig = Except.error e :=
  multi_point_unresolvable_path_aborts_fetch gjEmpty (0, 0) "" badPathConfig
    [GoValue.vMap badPathEntry] badPathEntry rfl (by simp) (by decide) rfl

/-- Go dynamic-type test for `map[string]interface\x7b\x7d`. -/
def isVMapB : GoValue → Bool
  | GoValue.vMap _ => true
  | _ => false

/-- C10: in multi-point mode, every non-mapping entry of the `data_points`
list is silently skipped: prepending it leaves the loop's result unchanged,
and a list whose K non-mapping entries are ignored yields its N−K mapping
entries' points with no error (provided those succeed). -/
theorem non_map_entries_silently_skipped
    (gj : String → String → Option Rat) (now : Int × Int) (jsonData : String)
    (source category : String) (entries : List GoValue)
    (hok : ∀ m, GoValue.vMap m ∈ entries →
      ∃ p, extractSingleDataPoint gj now jsonData m source category = Except.ok p) :
    (∀ (a : GoValue) (rest : List GoValue), isVMapB a = false →
      extractLoop gj now jsonData source category (a :: rest)
        = extractLoop gj now jsonData source category rest) ∧
    ∃ pts, extractLoop gj now jsonData source category entries = Except.ok pts ∧
      pts.length + (entries.filter (fun e => !isVMapB e)).length = entries.length := by
  constructor
  · intro a rest ha
    cases a
    case vMap m => simp [isVMapB] at ha
    all_goals simp [extractLoop]
  · induction entries with
    | nil => exact ⟨[], rfl, rfl⟩
    | cons a rest ih =>
      obtain ⟨pts, hl, hcount⟩ := ih (fun m hm => hok m (List.mem_cons_of_mem a hm))
      cases a with
      | vMap m =>
        obtain ⟨p, hp⟩ := hok m (List.mem_cons_self _ _)
        refine ⟨p :: pts, by simp [extractLoop, hp, hl], ?_⟩
        show pts.length + 1
          + (List.filter (fun e => !isVMapB e) rest).length = rest.length + 1
        omega
      | vNull =>
        refine ⟨pts, by simpa [extractLoop] using hl, ?_⟩
        show pts.length
          + ((List.filter (fun e => !isVMapB e) rest).length + 1) = rest.length + 1
        omega
      | vBool b =>
        refine ⟨pts, by simpa [extractLoop] using hl, ?_⟩
        show pts.length
          + ((List.filter (fun e => !isVMapB e) rest).length + 1) = rest.length + 1
        omega
      | vInt n =>
        refine ⟨pts, by simpa [extractLoop] using hl, ?_⟩
        show pts.length
          + ((List.filter (fun e => !isVMapB e) rest).length + 1) = rest.length + 1
        omega
      | vFloat q =>
        refine ⟨pts, by simpa [extractLoop] using hl, ?_⟩
        show pts.length
          + ((List.filter (fun e => !isVMapB e) rest).length + 1) = rest.length + 1
        omega
      | vString s =>
        refine ⟨pts, by simpa [extractLoop] using hl, ?_⟩
        show pts.length
          + ((List.filter (fun e => !isVMapB e) rest).length + 1) = rest.length + 1
        omega
      | vList xs =>
        refine ⟨pts, by simpa [extractLoop] using hl, ?_⟩
        show pts.length
          + ((List.filter (fun e => !isVMapB e) rest).length + 1) = rest.length + 1
        omega

/-- A sub-configuration whose path and coordinates resolve. -/
def goodEntry : GoMap :=
  [ ("response_path", GoValue.vString "$.a")
  , ("variable", GoValue.vString "flow")
  , ("units", GoValue.vString "cms")
  , ("coordinates", GoValue.vMap
      [("lat", GoValue.vFloat 45), ("lon", GoValue.vFloat 120)]) ]

/-- Path oracle resolving exactly "$.a" (to 5.2) and "$.b" (to 7). -/
def gjTwoPaths : String → String → Option Rat := fun _ p =>
  if p = "$.a" then some (26 / 5) else if p = "$.b" then some 7 else none

theorem non_map_entries_silently_skipped_witness :
    ∃ pts, extractLoop gjTwoPaths (0, 0) "doc" "s" "environmental"
        [GoValue.vString "skip", GoValue.vMap goodEntry, GoValue.vNull]
        = Except.ok pts ∧
      pts.length
        + (([GoValue.vString "skip", GoValue.vMap goodEntry,
             GoValue.vNull].filter (fun e => !isVMapB e)).length)
        = 3 := by
  refine (non_map_entries_silently_skipped gjTwoPaths (0, 0) "doc" "s" "environmental"
    [GoValue.vString "skip", GoValue.vMap goodEntry, GoValue.vNull] ?_).2
  intro m hm
  simp only [List.mem_cons, List.not_mem_nil, or_false] at hm
  rcases hm with h | h | h
  · cases h
  · cases h
    exact ⟨_, rfl⟩
  · cases h

/-- A well-formed sub-configuration: its `response_path` is present and
resolves in the document, and its coordinates mapping is present and
extracts successfully (in range). -/
def wellFormedEntry (gj : String → String → Option Rat) (jsonData : String)
    (m : GoMap) : Prop :=
  getStringConfig m "response_path" "" ≠ "" ∧
  (∃ v, gj jsonData (getStringConfig m "response_path" "") = some v) ∧
  (∃ c, mapLookup m "coordinates" = some (GoValue.vMap c) ∧
    ∃ lat lon, extractCoordinates gj jsonData c = Except.ok (lat, lon))

/-- A well-formed sub-configuration extracts to a point carrying that
entry's own `variable` and `units` (defaulting to "unknown"). -/
theorem extractSingle_ok_of_wellFormed
    (gj : String → String → Option Rat) (now : Int × Int) (jsonData : String)
    (m : GoMap) (source category : String)
    (h : wellFormedEntry gj jsonData m) :
    ∃ p, extractSingleDataPoint gj now jsonData m source category = Except.ok p ∧
      p.variable_ = getStringConfig m "variable" "unknown" ∧
      p.units = getStringConfig m "units" "unknown" := by
  obtain ⟨hne, ⟨v, hv⟩, ⟨c, hc, lat, lon, hcoord⟩⟩ := h
  refine ⟨{ source := source, epochMs := now.1, value := v, lat := lat, lon := lon,
            variable_ := getStringConfig m "variable" "unknown",
            units := getStringConfig m "units" "unknown",
            resolution := getStringConfig m "resolution" "point",
            uuid := generateUUID now.2 source (getStringConfig m "variable" "unknown")
              (getStringConfig m "station_id" ""),
            category := category }, ?_, rfl, rfl⟩
  simp only [extractSingleDataPoint, hv, hc, hcoord, if_neg hne]

/-- The multi-point loop over all-mapping entries that are each well
formed: every entry yields its point, in order. -/
theorem extractLoop_ok_of_all_wellFormed
    (gj : String → String → Option Rat) (now : Int × Int) (jsonData : String)
    (source category : String) (maps : List GoMap)
    (h : ∀ m ∈ maps, wellFormedEntry gj jsonData m) :
    ∃ pts, extractLoop gj now jsonData source category (maps.map GoValue.vMap)
        = Except.ok pts ∧
      pts.length = maps.length ∧
      ∀ (i : Nat) (hi : i < maps.length) (hp : i < pts.length),
        (pts.get ⟨i, hp⟩).variable_
          = getStringConfig (maps.get ⟨i, hi⟩) "variable" "unknown" ∧
        (pts.get ⟨i, hp⟩).units
          = getStringConfig (maps.get ⟨i, hi⟩) "units" "unknown" := by
  induction maps with
  | nil =>
    exact ⟨[], rfl, rfl, fun i hi => absurd hi (Nat.not_lt_zero i)⟩
  | cons a rest ih =>
    obtain ⟨p, hpe, hvar, hunits⟩ := extractSingle_ok_of_wellFormed gj now jsonData
      a source category (h a (List.mem_cons_self _ _))
    obtain ⟨pts, hl, hlen, hfield⟩ := ih (fun m hm => h m (List.mem_cons_of_mem a hm))
    refine ⟨p :: pts, by simp [extractLoop, hpe, hl], by simp [hlen], ?_⟩
    intro i hi hp
    cases i with
    | zero => exact ⟨hvar, hunits⟩
    | succ n =>
      exact hfield n (Nat.lt_of_succ_lt_succ hi) (Nat.lt_of_succ_lt_succ hp)

/-- C6: when `data_points` is a list of N well-formed mapping entries,
extraction succeeds with exactly N DataPoints, and the i-th point carries
the `variable` and `units` of the i-th entry (defaulting to "unknown"). -/
theorem multi_point_extraction_yields_all_points
    (gj : String → String → Option Rat) (now : Int × Int) (jsonData : String)
    (config : GoMap) (maps : List GoMap)
    (hdp : mapLookup config "data_points"
      = some (GoValue.vList (maps.map GoValue.vMap)))
    (h : ∀ m ∈ maps, wellFormedEntry gj jsonData m) :
    ∃ pts, extractDataPoints gj now jsonData config = Except.ok pts ∧
      pts.length = maps.length ∧
      ∀ (i : Nat) (hi : i < maps.length) (hp : i < pts.length),
        (pts.get ⟨i, hp⟩).variable_
          = getStringConfig (maps.get ⟨i, hi⟩) "variable" "unknown" ∧
        (pts.get ⟨i, hp⟩).units
          = getStringConfig (maps.get ⟨i, hi⟩) "units" "unknown" := by
  obtain ⟨pts, hl, hlen, hf⟩ := extractLoop_ok_of_all_wellFormed gj now jsonData
    (getStringConfig config "source" "unknown")
    (getStringConfig config "category" "environmental") maps h
  exact ⟨pts, by simp [extractDataPoints, hdp, hl], hlen, hf⟩

/-- A second well-formed sub-configuration, without `variable`/`units`
(they default to "unknown"). -/
def goodEntryB : GoMap :=
  [ ("response_path", GoValue.vString "$.b")
  , ("coordinates", GoValue.vMap
      [("lat", GoValue.vFloat (-10)), ("lon", GoValue.vFloat 30)]) ]

def twoPointConfig : GoMap :=
  [ ("source", GoValue.vString "river")
  , ("category", GoValue.vString "environmental")
  , ("data_points", GoValue.vList [GoValue.vMap goodEntry, GoValue.vMap goodEntryB]) ]

theorem multi_point_extraction_yields_all_points_witness :
    ∃ pts, extractDataPoints gjTwoPaths (0, 0) "doc" twoPointConfig = Except.ok pts ∧
      pts.length = 2 ∧
      ∀ (i : Nat) (hi : i < ([goodEntry, goodEntryB] : List GoMap).length)
        (hp : i < pts.length),
        (pts.get ⟨i, hp⟩).variable_
          = getStringConfig (([goodEntry, goodEntryB] : List GoMap).get ⟨i, hi⟩)
              "variable" "unknown" ∧
        (pts.get ⟨i, hp⟩).units
          = getStringConfig (([goodEntry, goodEntryB] : List GoMap).get ⟨i, hi⟩)
              "units" "unknown" := by
  refine multi_point_extraction_yields_all_points gjTwoPaths (0, 0) "doc"
    twoPointConfig [goodEntry, goodEntryB] rfl ?_
  intro m hm
  simp only [List.mem_cons, List.not_mem_nil, or_false] at hm
  rcases hm with h | h
  · cases h
    exact ⟨by decide, ⟨26 / 5, rfl⟩,
      ⟨[("lat", GoValue.vFloat 45), ("lon", GoValue.vFloat 120)], rfl, 45, 120,
        by decide⟩⟩
  · cases h
    exact ⟨by decide, ⟨7, rfl⟩,
      ⟨[("lat", GoValue.vFloat (-10)), ("lon", GoValue.vFloat 30)], rfl, -10, 30,
        by decide⟩⟩

/-- C5: a header value of the exact form dollar-brace-NAME-brace is
replaced by the content of environment variable NAME before being set on
the request (an unset variable yields the empty string, no error), and a
value not of that form is passed to `req.Header.Set` unchanged. -/
theorem header_env_interpolation
    (env : List Char → Option (List Char)) (name : List Char) :
    interpolateHeaderValue env (['$', '\x7b'] ++ name ++ ['\x7d'])
      = goGetenv env name ∧
    (env name = none →
      interpolateHeaderValue env (['$', '\x7b'] ++ name ++ ['\x7d']) = []) ∧
    (∀ value : List Char, (∀ n : List Char, value ≠ ['$', '\x7b'] ++ n ++ ['\x7d']) →
      interpolateHeaderValue env value = value) := by
  have hpre : (['$', '\x7b'] : List Char).isPrefixOf
      ((['$', '\x7b'] ++ name) ++ ['\x7d']) = true := by
    rw [List.isPrefixOf_iff_prefix]
    exact ⟨name ++ ['\x7d'], by simp⟩
  have hsuf : (['\x7d'] : List Char).isSuffixOf
      ((['$', '\x7b'] ++ name) ++ ['\x7d']) = true := by
    rw [List.isSuffixOf_iff_suffix]
    exact ⟨['$', '\x7b'] ++ name, rfl⟩
  have hpre2 : (['$', '\x7b'] : List Char).isPrefixOf
      (['$', '\x7b'] ++ name) = true := by
    rw [List.isPrefixOf_iff_prefix]
    exact ⟨name, rfl⟩
  have hmain : interpolateHeaderValue env (['$', '\x7b'] ++ name ++ ['\x7d'])
      = goGetenv env name := by
    unfold interpolateHeaderValue
    rw [hpre, hsuf]
    simp only [Bool.and_self, if_true]
    congr 1
    unfold goTrimSuf
    rw [hsuf]
    simp only [if_true]
    rw [show ((['$', '\x7b'] ++ name) ++ ['\x7d']).length
        - (['\x7d'] : List Char).length = (['$', '\x7b'] ++ name).length by simp]
    rw [List.take_left]
    unfold goTrimPre
    rw [hpre2]
    simp only [if_true]
    exact List.drop_left _ _
  refine ⟨hmain, ?_, ?_⟩
  · intro hnone
    rw [hmain]
    simp [goGetenv, hnone]
  · intro value hnot
    unfold interpolateHeaderValue
    rw [if_neg]
    intro hcond
    rw [Bool.and_eq_true] at hcond
    obtain ⟨hp, hs⟩ := hcond
    obtain ⟨t, ht⟩ := List.isPrefixOf_iff_prefix.mp hp
    obtain ⟨u, hu⟩ := List.isSuffixOf_iff_suffix.mp hs
    rw [← ht] at hu
    cases u with
    | nil =>
      injection hu with h1 h2
      exact absurd h1 (by decide)
    | cons x u' =>
      cases u' with
      | nil =>
        injection hu with h1 h2
        injection h2 with h3 h4
        exact absurd h3 (by decide)
      | cons y u'' =>
        injection hu with h1 h2
        injection h2 with h3 h4
        have h5 : u'' ++ ['\x7d'] = t := by simpa using h4
        apply hnot u''
        rw [← ht, ← h5]
        simp

/-- A concrete process environment binding only MY_VAR. -/
def envSecret : List Char → Option (List Char) := fun n =>
  if n = "MY_VAR".data then some "secret".data else none

theorem header_env_interpolation_witness :
    interpolateHeaderValue envSecret "$\x7bMY_VAR\x7d".data = "secret".data ∧
    interpolateHeaderValue envSecret "$\x7bUNSET\x7d".data = [] ∧
    interpolateHeaderValue envSecret "plain".data = "plain".data := by
  refine ⟨?_, ?_, ?_⟩
  · have h := (header_env_interpolation envSecret "MY_VAR".data).1
    rw [show "$\x7bMY_VAR\x7d".data
        = ['$', '\x7b'] ++ "MY_VAR".data ++ ['\x7d'] from rfl]
    rw [h]
    rfl
  · have h := (header_env_interpolation envSecret "UNSET".data).2.1 rfl
    rw [show "$\x7bUNSET\x7d".data
        = ['$', '\x7b'] ++ "UNSET".data ++ ['\x7d'] from rfl]
    exact h
  · refine (header_env_interpolation envSecret []).2.2 "plain".data ?_
    intro n h
    rw [show "plain".data = ['p', 'l', 'a', 'i', 'n'] from rfl] at h
    simp only [List.cons_append, List.nil_append] at h
    injection h with h1 h2
    exact absurd h1 (by decide)

theorem publishPoints_empty_is_noop_witness :
    publishPoints pbFailOracle jsonOkOracle writeOkOracle []
      = { busCalls := [], result := Except.ok () } :=
  publishPoints_empty_is_noop pbFailOracle jsonOkOracle writeOkOracle

end Emma
